import Mathlib

/-!
# CertiTrust — verification of the issuance/verification pipeline spec

Shallow embedding of the CertiTrust repository's core data model and
operations, together with theorems settling the frozen claims.

Sources embedded from the repository:
* `src/unnamed/part_002` — the `ErrorCode` enumeration, the
  `VerificationResult` schema and the `ERROR_MESSAGES` table.
* `src/scripts/migrate_multitenant.sql` — the `audit_logs` table and the
  `get_next_chain_position` / `get_previous_log_hash` SQL functions.
* `src/unnamed/part_000` — the `verifyHash` route (on-chain attestation
  check plus database lookup).

The cryptographic core (fingerprint engine, canonical payload builder,
Ed25519 signer/verifier, the ordered verification state machine) lives in
the backend service that is not part of the repository snapshot; those
parts are modelled from the spec, each with a doc comment starting
`Modelled from the spec:`.
-/

namespace CertiTrust

/-! ## Fingerprint engine (Merkle commitment) -/

/-- Document bytes: a list of byte values. -/
abbrev Bytes := List Nat

/-- Modelled from the spec: `fingerprint(bytes) -> contentHash` — a
deterministic cryptographic hash (§4.1); collision resistance of the
primitive is idealised as injectivity of the digest function.  Digests are
modelled as naturals (the repo renders them as 64-char lowercase hex). -/
def fingerprint (b : Bytes) : Nat := Encodable.encode b

/-- Modelled from the spec: hashing the concatenation of two child digests
(one pairwise fold step of §4.1), idealised as an injective pairing. -/
def combineHashes (a b : Nat) : Nat := Encodable.encode (a, b)

/-- Modelled from the spec: one level of the pairwise Merkle fold —
concatenate two child hashes and hash the concatenation; an odd trailing
node is promoted to the next level unhashed (§4.1). -/
def merkleLevel : List Nat → List Nat
  | a :: b :: rest => combineHashes a b :: merkleLevel rest
  | l => l

theorem merkleLevel_length_le (l : List Nat) : (merkleLevel l).length ≤ l.length := by
  match l with
  | [] => simp [merkleLevel]
  | [a] => simp [merkleLevel]
  | a :: b :: rest =>
    have ih := merkleLevel_length_le rest
    simp only [merkleLevel, List.length_cons]
    omega

/-- Modelled from the spec: the Merkle root of an ordered list of page
digests — fold pairwise until one root remains (§4.1).  The root of the
empty hash list (single-blob, non-paginated document) is the `0` sentinel. -/
def merkleRootOf (hs : List Nat) : Nat :=
  match hs with
  | [] => 0
  | [h] => h
  | a :: b :: rest => merkleRootOf (merkleLevel (a :: b :: rest))
termination_by hs.length
decreasing_by
  simp only [merkleLevel, List.length_cons]
  have := merkleLevel_length_le rest
  omega

/-- Modelled from the spec: `fingerprintPages(orderedPageBytes) ->
(pageHashes, merkleRoot)` — hashes each page independently, then folds
pairwise until one root remains (§4.1). -/
def fingerprintPages (pages : List Bytes) : List Nat × Nat :=
  let pageHashes := pages.map fingerprint
  (pageHashes, merkleRootOf pageHashes)

/-- C9: for a single page the Merkle commitment degenerates to the page
hash itself, with no extra hashing round. -/
theorem merkleRootOf_singleton (h : Nat) : merkleRootOf [h] = h := by
  simp [merkleRootOf]

/-! ## Canonical payload builder and Ed25519 signer/verifier -/

/-- Modelled from the spec: the credential payload fields (§3) —
`documentHash`, `merkleRoot`, `institutionId`, `issuedAt`, `documentType`,
optional `expiresAt`.  Hash digests and identifiers are modelled as
naturals, the document type as its byte string. -/
structure CredentialFields where
  documentHash : Nat
  merkleRoot : Nat
  institutionId : Nat
  issuedAt : Nat
  documentType : Bytes
  expiresAt : Option Nat
deriving DecidableEq

/-- Modelled from the spec: `buildPayload(fields) -> bytes` (§4.3) — one
deterministic byte encoding with stable field order; implemented once and
shared by issuance and verification. -/
def buildPayload (f : CredentialFields) : Bytes :=
  f.documentHash :: f.merkleRoot :: f.institutionId :: f.issuedAt ::
    (match f.expiresAt with | none => 0 | some e => e + 1) :: f.documentType

/-- Modelled from the spec: Ed25519 public-key derivation — the public key
determined by a private key, abstracted as an injective derivation. -/
def keyToPub (sk : Nat) : Nat := 2 * sk + 1

/-- Modelled from the spec: the unique well-formed signature over a payload
under a given public key (Ed25519 signatures are deterministic); rendered
as an embeddable string as the repo embeds base64 signatures. -/
def sigOf (p : Bytes) (pk : Nat) : String :=
  "ed25519:" ++ Nat.repr (Encodable.encode (p, pk))

/-- Modelled from the spec: `sign(payloadBytes, privateKeyHandle) ->
signature` (§4.4). -/
def sign (p : Bytes) (sk : Nat) : String := sigOf p (keyToPub sk)

/-- Modelled from the spec: `verify(payloadBytes, signature, publicKey) ->
bool` (§4.4) — a pure total comparison against the well-formed signature;
any other string (malformed included) yields `false`, never a fault. -/
def verify (p : Bytes) (s : String) (pk : Nat) : Bool := s == sigOf p pk

theorem verify_sign (p : Bytes) (sk : Nat) :
    verify p (sign p sk) (keyToPub sk) = true := by
  simp [verify, sign]

theorem verify_eq_false_of_ne (p : Bytes) (s : String) (pk : Nat)
    (h : s ≠ sigOf p pk) : verify p s pk = false := by
  simp [verify, h]

/-- A well-formed signature always starts with the `"ed25519:"` tag, so the
malformed string `"invalid_signature"` is never accepted. -/
theorem sigOf_ne_invalid (p : Bytes) (pk : Nat) :
    sigOf p pk ≠ "invalid_signature" := by
  intro h
  have hd := congrArg String.data h
  rw [sigOf, String.data_append] at hd
  simp at hd

/-! ## Error taxonomy and verification result schema
(from `src/unnamed/part_002`: `ErrorCode`, `VerificationResult`,
`ERROR_MESSAGES`) -/

/-- The fixed set of outcome codes, from the `ErrorCode` union type in
`src/unnamed/part_002`. -/
inductive ErrorCode where
  | SUCCESS
  | QR_NOT_FOUND
  | QR_DECODE_FAIL
  | PAYLOAD_READ_FAIL
  | HASH_MISMATCH
  | SIGNATURE_MISMATCH
  | INSTITUTION_NOT_FOUND
  | DOCUMENT_REVOKED
  | INTERNAL_ERROR
deriving DecidableEq, Repr

/-- The `title` strings of the `ERROR_MESSAGES` table in
`src/unnamed/part_002`, one per error code. -/
def errorMessage : ErrorCode → String
  | .SUCCESS => "Document Verified"
  | .QR_NOT_FOUND => "QR Code Not Found"
  | .QR_DECODE_FAIL => "QR Decode Failed"
  | .PAYLOAD_READ_FAIL => "Invalid QR Payload"
  | .HASH_MISMATCH => "Document Modified"
  | .SIGNATURE_MISMATCH => "Signature Invalid"
  | .INSTITUTION_NOT_FOUND => "Issuer Not Found"
  | .DOCUMENT_REVOKED => "Document Revoked"
  | .INTERNAL_ERROR => "Verification Error"

/-- The structured verification result, from the `VerificationResult`
interface in `src/unnamed/part_002` (core fields of the stable schema). -/
structure VerificationResult where
  valid : Bool
  error_code : ErrorCode
  message : String
  documentHash : Option Nat
  institutionId : Option Nat
  merkleRoot : Option Nat
deriving DecidableEq, Repr

/-- Build a well-formed result for an outcome code: `valid` is true exactly
on `SUCCESS` and `message` is the code's message from `ERROR_MESSAGES`. -/
def mkResult (code : ErrorCode) (dh inst mr : Option Nat) : VerificationResult :=
  { valid := match code with | .SUCCESS => true | _ => false
    error_code := code
    message := errorMessage code
    documentHash := dh
    institutionId := inst
    merkleRoot := mr }

/-! ## Verification state machine (§4.6) -/

/-- Modelled from the spec: the proof token consumed at verification —
the canonical payload fields plus the embedded signature (§3). -/
structure ProofToken where
  fields : CredentialFields
  signature : String
deriving DecidableEq

/-- Modelled from the spec: the outcome of locating and decoding the
embedded token (stages 1–2 of §4.6): absent, corrupt container, well-formed
container with an invalid payload schema, or a decoded token. -/
inductive TokenScan where
  | absent
  | corrupt
  | badPayload
  | decoded (t : ProofToken)
deriving DecidableEq

/-- Modelled from the spec: institution key material (§3) — active flag and
the public keys of all still-valid key epochs. -/
structure Institution where
  isActive : Bool
  keys : List Nat
deriving DecidableEq

/-- Modelled from the spec: credential status (§3) — `active`, `revoked` or
`expired`. -/
inductive CredStatus where
  | active
  | revoked
  | expired
deriving DecidableEq

/-- Modelled from the spec: the institution/credential persistence
collaborators (§6); each lookup can fault unexpectedly (`Except.error`),
e.g. store unavailable. -/
structure Store where
  findInstitution : Nat → Except Unit (Option Institution)
  statusOf : Nat → Except Unit CredStatus

/-- Modelled from the spec: the strict ordered verification pipeline
(§4.6).  Each stage either advances or terminates with that stage's error
code: 1. locate token (`QR_NOT_FOUND`); 2. decode (`QR_DECODE_FAIL` /
`PAYLOAD_READ_FAIL`); 3. recompute the fingerprint of the presented
document and compare (`HASH_MISMATCH`); 4. resolve the institution,
unknown or deactivated (`INSTITUTION_NOT_FOUND`); 5. credential status
(`DOCUMENT_REVOKED`, expired treated as revoked-equivalent); 6. verify the
signature over the canonical payload against every still-valid key epoch
(`SIGNATURE_MISMATCH`); 7. `SUCCESS`.  Unexpected collaborator faults are
recovered into `INTERNAL_ERROR`; no raw exception escapes. -/
def runVerification (scan : TokenScan) (doc : Bytes) (store : Store) :
    VerificationResult :=
  match scan with
  | .absent => mkResult .QR_NOT_FOUND none none none
  | .corrupt => mkResult .QR_DECODE_FAIL none none none
  | .badPayload => mkResult .PAYLOAD_READ_FAIL none none none
  | .decoded t =>
    if fingerprint doc = t.fields.documentHash then
      match store.findInstitution t.fields.institutionId with
      | .error _ => mkResult .INTERNAL_ERROR (some t.fields.documentHash) none none
      | .ok none =>
        mkResult .INSTITUTION_NOT_FOUND (some t.fields.documentHash) none none
      | .ok (some inst) =>
        if inst.isActive then
          match store.statusOf t.fields.documentHash with
          | .error _ =>
            mkResult .INTERNAL_ERROR (some t.fields.documentHash)
              (some t.fields.institutionId) none
          | .ok .active =>
            if inst.keys.any (fun pk => verify (buildPayload t.fields) t.signature pk) then
              mkResult .SUCCESS (some t.fields.documentHash)
                (some t.fields.institutionId) (some t.fields.merkleRoot)
            else
              mkResult .SIGNATURE_MISMATCH (some t.fields.documentHash)
                (some t.fields.institutionId) none
          | .ok _ =>
            mkResult .DOCUMENT_REVOKED (some t.fields.documentHash)
              (some t.fields.institutionId) none
        else
          mkResult .INSTITUTION_NOT_FOUND (some t.fields.documentHash) none none
    else
      mkResult .HASH_MISMATCH (some t.fields.documentHash) none none

/-- The outcome codes as listed by the spec (§7), in the spec's claimed
"verification-pipeline order". -/
def specListedCodes : List ErrorCode :=
  [.QR_NOT_FOUND, .QR_DECODE_FAIL, .PAYLOAD_READ_FAIL, .HASH_MISMATCH,
   .SIGNATURE_MISMATCH, .INSTITUTION_NOT_FOUND, .DOCUMENT_REVOKED,
   .INTERNAL_ERROR, .SUCCESS]

/-- The pipeline stage (§4.6, mirrored by `runVerification`) at which each
code terminates the run: 1 locate token, 2 decode, 3 fingerprint
comparison, 4 institution resolution, 5 credential status, 6 signature,
7 success.  `INTERNAL_ERROR` is not tied to one stage (a collaborator
fault at stages 4–5); it is kept after the stage-specific failures as in
the spec's own listing. -/
def stageOf : ErrorCode → Nat
  | .QR_NOT_FOUND => 1
  | .QR_DECODE_FAIL => 2
  | .PAYLOAD_READ_FAIL => 2
  | .HASH_MISMATCH => 3
  | .INSTITUTION_NOT_FOUND => 4
  | .DOCUMENT_REVOKED => 5
  | .SIGNATURE_MISMATCH => 6
  | .INTERNAL_ERROR => 7
  | .SUCCESS => 8

/-- The same code set reordered to match the pipeline's actual stage
order: `SIGNATURE_MISMATCH` can only terminate the run after institution
resolution and the revocation check. -/
def pipelineOrderCodes : List ErrorCode :=
  [.QR_NOT_FOUND, .QR_DECODE_FAIL, .PAYLOAD_READ_FAIL, .HASH_MISMATCH,
   .INSTITUTION_NOT_FOUND, .DOCUMENT_REVOKED, .SIGNATURE_MISMATCH,
   .INTERNAL_ERROR, .SUCCESS]

/-- A well-formed structured result: `valid` is true exactly on `SUCCESS`,
the code is one of the fixed §7 set, and the message is that code's entry
of the `ERROR_MESSAGES` table. -/
def wellFormedResult (r : VerificationResult) : Prop :=
  (r.valid = true ↔ r.error_code = .SUCCESS) ∧
  r.error_code ∈ specListedCodes ∧
  r.message = errorMessage r.error_code

theorem wellFormed_mkResult (c : ErrorCode) (dh inst mr : Option Nat) :
    wellFormedResult (mkResult c dh inst mr) := by
  refine ⟨?_, ?_, rfl⟩
  · cases c <;> simp [mkResult]
  · cases c <;> simp [mkResult, specListedCodes]

theorem runVerification_wellFormed (scan : TokenScan) (doc : Bytes)
    (store : Store) : wellFormedResult (runVerification scan doc store) := by
  unfold runVerification
  repeat' split
  all_goals apply wellFormed_mkResult

/-- Flip bit `j` of byte `i` of a document. -/
def flipBit (doc : Bytes) (i j : Nat) : Bytes :=
  doc.set i (doc.getD i 0 ^^^ 2 ^ j)

theorem xor_two_pow_ne (b j : Nat) : b ^^^ 2 ^ j ≠ b := by
  intro h
  have h2 : b ^^^ (b ^^^ 2 ^ j) = b ^^^ b := congrArg (b ^^^ ·) h
  rw [← Nat.xor_assoc, Nat.xor_self, Nat.zero_xor] at h2
  have : 0 < 2 ^ j := Nat.pos_pow_of_pos j (by norm_num)
  omega

theorem flipBit_ne (doc : Bytes) (i j : Nat) (hi : i < doc.length) :
    flipBit doc i j ≠ doc := by
  intro h
  have hq := congrArg (fun l : List Nat => l[i]?) h
  have hset : (doc.set i (doc.getD i 0 ^^^ 2 ^ j))[i]? =
      some (doc.getD i 0 ^^^ 2 ^ j) := by
    rw [List.getElem?_set_self]
    simpa using hi
  simp only [flipBit] at hq
  rw [hset, List.getElem?_eq_getElem hi, List.getD_eq_getElem doc 0 hi] at hq
  exact xor_two_pow_ne _ j (Option.some.inj hq)

theorem fingerprint_flipBit_ne (doc : Bytes) (i j : Nat) (hi : i < doc.length) :
    fingerprint (flipBit doc i j) ≠ fingerprint doc :=
  fun h => flipBit_ne doc i j hi (Encodable.encode_injective h)

/-! ## The `/verify/document` API entry point -/

/-- The byte sequence of a hash string presented to the API. -/
def strToBytes (s : String) : Bytes := s.data.map Char.toNat

/-- Modelled from the spec: the store consulted by the `/verify/document`
endpoint — resolving the issuing institution for a presented document
hash. -/
structure DocStore where
  institutionFor : String → Option Institution

/-- Modelled from the spec: the `/verify/document` API endpoint exercised
by `src/web/tests/e2e/trust_flow.spec.ts` — a document hash and signature
are checked without a file upload.  Institution resolution is pinned
before the signature check, in the §4.6 stage order, so an unknown
institution deterministically yields `INSTITUTION_NOT_FOUND`. -/
def verifyDocument (document_hash signature : String) (store : DocStore) :
    VerificationResult :=
  match store.institutionFor document_hash with
  | none => mkResult .INSTITUTION_NOT_FOUND none none none
  | some inst =>
    if inst.keys.any (fun pk => verify (strToBytes document_hash) signature pk) then
      mkResult .SUCCESS none none none
    else
      mkResult .SIGNATURE_MISMATCH none none none

end CertiTrust

/-- C2: The verification pipeline is a strict ordered sequence of checks
terminating at the first failing stage with that stage's code, and the
fingerprint comparison happens before the signature check: for every
signed document with any single bit flipped, the pipeline terminates with
`HASH_MISMATCH` — never `SIGNATURE_MISMATCH` — and does so without
consulting any later stage (the result is independent of the store). -/
theorem C2_bit_flip_hash_mismatch (t : CertiTrust.ProofToken)
    (doc : CertiTrust.Bytes) (store : CertiTrust.Store) (i j : Nat)
    (hi : i < doc.length)
    (hdh : t.fields.documentHash = CertiTrust.fingerprint doc) :
    (CertiTrust.runVerification (.decoded t) (CertiTrust.flipBit doc i j)
        store).error_code = .HASH_MISMATCH ∧
    (CertiTrust.runVerification (.decoded t) (CertiTrust.flipBit doc i j)
        store).error_code ≠ .SIGNATURE_MISMATCH ∧
    (∀ store' : CertiTrust.Store,
      CertiTrust.runVerification (.decoded t) (CertiTrust.flipBit doc i j) store' =
      CertiTrust.runVerification (.decoded t) (CertiTrust.flipBit doc i j) store) := by
  have hcond : ¬ (CertiTrust.fingerprint (CertiTrust.flipBit doc i j) =
      t.fields.documentHash) := by
    rw [hdh]
    exact CertiTrust.fingerprint_flipBit_ne doc i j hi
  refine ⟨?_, ?_, ?_⟩
  · simp [CertiTrust.runVerification, if_neg hcond, CertiTrust.mkResult]
  · simp [CertiTrust.runVerification, if_neg hcond, CertiTrust.mkResult]
  · intro store'
    simp [CertiTrust.runVerification, if_neg hcond]

/-- Witness for C2: flipping the lowest bit of the single byte of a
concrete signed document yields `HASH_MISMATCH`. -/
theorem C2_bit_flip_hash_mismatch_witness :
    (CertiTrust.runVerification
        (.decoded ⟨⟨CertiTrust.fingerprint [0], 0, 0, 0, [], none⟩, "s"⟩)
        (CertiTrust.flipBit [0] 0 0)
        ⟨fun _ => .ok none, fun _ => .ok .active⟩).error_code =
      .HASH_MISMATCH :=
  (C2_bit_flip_hash_mismatch ⟨⟨CertiTrust.fingerprint [0], 0, 0, 0, [], none⟩, "s"⟩
    [0] ⟨fun _ => .ok none, fun _ => .ok .active⟩ 0 0 (by decide) rfl).1

/-- C1: For every valid credential field set `f` and every matching Ed25519
key pair `(sk, pk)` (`pk = keyToPub sk`), verifying the signature produced
by `sign` over `buildPayload f` with `pk` succeeds; and for every payload
and public key, `verify` is a total boolean function that returns `false`
on any string that is not the well-formed signature — in particular on the
malformed `"invalid_signature"` — rather than throwing. -/
theorem C1_sign_verify_roundtrip :
    (∀ (f : CertiTrust.CredentialFields) (sk pk : Nat),
      pk = CertiTrust.keyToPub sk →
      CertiTrust.verify (CertiTrust.buildPayload f)
        (CertiTrust.sign (CertiTrust.buildPayload f) sk) pk = true) ∧
    (∀ (p : CertiTrust.Bytes) (s : String) (pk : Nat),
      s ≠ CertiTrust.sigOf p pk → CertiTrust.verify p s pk = false) ∧
    (∀ (p : CertiTrust.Bytes) (pk : Nat),
      CertiTrust.verify p "invalid_signature" pk = false) := by
  refine ⟨?_, CertiTrust.verify_eq_false_of_ne, ?_⟩
  · intro f sk pk hpk
    subst hpk
    exact CertiTrust.verify_sign _ sk
  · intro p pk
    exact CertiTrust.verify_eq_false_of_ne p _ pk
      fun h => CertiTrust.sigOf_ne_invalid p pk h.symm

/-- Witness for C1 at a concrete field set, key pair and malformed
signature. -/
theorem C1_sign_verify_roundtrip_witness :
    CertiTrust.verify (CertiTrust.buildPayload ⟨1, 2, 3, 4, [9], none⟩)
      (CertiTrust.sign (CertiTrust.buildPayload ⟨1, 2, 3, 4, [9], none⟩) 0)
      (CertiTrust.keyToPub 0) = true ∧
    CertiTrust.verify [] "x" 5 = false :=
  ⟨C1_sign_verify_roundtrip.1 ⟨1, 2, 3, 4, [9], none⟩ 0 _ rfl,
   C1_sign_verify_roundtrip.2.1 [] "x" 5 (by decide)⟩

/-- C9: For every single-page document `p`, the Merkle commitment
degenerates to the page hash with no extra hashing round:
`fingerprintPages([p]).merkleRoot = fingerprint(p)`, i.e. the Merkle root
of a one-element hash list is that hash; and the Merkle root is
deterministic given the page hashes in order (it is a function of them). -/
theorem C9_single_page_merkle_degenerate :
    (∀ p : CertiTrust.Bytes,
      (CertiTrust.fingerprintPages [p]).2 = CertiTrust.fingerprint p) ∧
    (∀ hs : List Nat, hs.length = 1 →
      CertiTrust.merkleRootOf hs = hs.headI) ∧
    (∀ pages : List CertiTrust.Bytes,
      (CertiTrust.fingerprintPages pages).2 =
        CertiTrust.merkleRootOf ((CertiTrust.fingerprintPages pages).1)) := by
  refine ⟨fun p => CertiTrust.merkleRootOf_singleton _, ?_, fun pages => rfl⟩
  intro hs h1
  match hs, h1 with
  | [h], _ => simpa using CertiTrust.merkleRootOf_singleton h

/-- Witness for C9 at a concrete one-page document. -/
theorem C9_single_page_merkle_degenerate_witness :
    (CertiTrust.fingerprintPages [[7, 3]]).2 = CertiTrust.fingerprint [7, 3] ∧
    CertiTrust.merkleRootOf [5] = [5].headI :=
  ⟨C9_single_page_merkle_degenerate.1 [7, 3],
   C9_single_page_merkle_degenerate.2.1 [5] (by decide)⟩

/-- C3 counterexample: the §7 listing is not in verification-pipeline
order.  `SIGNATURE_MISMATCH` is listed before `INSTITUTION_NOT_FOUND`,
but the pipeline resolves the institution before it can check the
signature: a concrete run whose signature is the malformed
`"invalid_signature"` and whose institution is unknown terminates at
`INSTITUTION_NOT_FOUND`, not `SIGNATURE_MISMATCH`. -/
theorem C3_outcome_codes_counterexample :
    ¬ List.Pairwise (fun a b => CertiTrust.stageOf a ≤ CertiTrust.stageOf b)
        CertiTrust.specListedCodes ∧
    (CertiTrust.runVerification
        (.decoded ⟨⟨CertiTrust.fingerprint [1], 0, 7, 0, [], none⟩,
          "invalid_signature"⟩)
        [1] ⟨fun _ => .ok none, fun _ => .ok .active⟩).error_code =
      .INSTITUTION_NOT_FOUND := by
  constructor
  · decide
  · rfl

/-- C3 (amended): every verification attempt reports exactly one outcome
code, drawn from the fixed nine-code set; the codes are mutually
exclusive (one code per attempt); and the set listed in actual
verification-pipeline order places `SIGNATURE_MISMATCH` after
`INSTITUTION_NOT_FOUND` and `DOCUMENT_REVOKED` (the §7 listing is the
same set, but with `SIGNATURE_MISMATCH` placed before the institution
checks, which is not the pipeline's order). -/
theorem C3_outcome_codes_amended :
    (∀ (scan : CertiTrust.TokenScan) (doc : CertiTrust.Bytes)
        (store : CertiTrust.Store),
      (CertiTrust.runVerification scan doc store).error_code ∈
        CertiTrust.specListedCodes) ∧
    (∀ (scan : CertiTrust.TokenScan) (doc : CertiTrust.Bytes)
        (store : CertiTrust.Store),
      ∃! c : CertiTrust.ErrorCode,
        (CertiTrust.runVerification scan doc store).error_code = c) ∧
    List.Perm CertiTrust.pipelineOrderCodes CertiTrust.specListedCodes ∧
    List.Pairwise (fun a b => CertiTrust.stageOf a ≤ CertiTrust.stageOf b)
      CertiTrust.pipelineOrderCodes := by
  refine ⟨?_, ?_, by decide, by decide⟩
  · intro scan doc store
    exact (CertiTrust.runVerification_wellFormed scan doc store).2.1
  · intro scan doc store
    exact ⟨(CertiTrust.runVerification scan doc store).error_code, rfl,
      fun y hy => hy.symm⟩

/-- C4: For every input the verification pipeline returns a well-formed
structured result conforming to the stable schema (`valid` true exactly on
`SUCCESS`, `error_code` from the fixed §7 set, `message` from the
`ERROR_MESSAGES` table) and never propagates a raw exception; an
unexpected collaborator fault (institution store unavailable) is mapped to
`INTERNAL_ERROR` inside a well-formed result with `valid = false`. -/
theorem C4_structured_results :
    (∀ (scan : CertiTrust.TokenScan) (doc : CertiTrust.Bytes)
        (store : CertiTrust.Store),
      CertiTrust.wellFormedResult (CertiTrust.runVerification scan doc store)) ∧
    (∀ (t : CertiTrust.ProofToken) (doc : CertiTrust.Bytes)
        (store : CertiTrust.Store),
      CertiTrust.fingerprint doc = t.fields.documentHash →
      store.findInstitution t.fields.institutionId = .error () →
      (CertiTrust.runVerification (.decoded t) doc store).error_code =
          .INTERNAL_ERROR ∧
      (CertiTrust.runVerification (.decoded t) doc store).valid = false) := by
  refine ⟨CertiTrust.runVerification_wellFormed, ?_⟩
  intro t doc store hf herr
  constructor <;>
    simp [CertiTrust.runVerification, if_pos hf, herr, CertiTrust.mkResult]

/-- Witness for C4 at a concrete token and a store whose institution
lookup faults. -/
theorem C4_structured_results_witness :
    (CertiTrust.runVerification
        (.decoded ⟨⟨CertiTrust.fingerprint [2], 0, 0, 0, [], none⟩, "s"⟩)
        [2] ⟨fun _ => .error (), fun _ => .ok .active⟩).error_code =
      .INTERNAL_ERROR :=
  (C4_structured_results.2 ⟨⟨CertiTrust.fingerprint [2], 0, 0, 0, [], none⟩, "s"⟩
    [2] ⟨fun _ => .error (), fun _ => .ok .active⟩ rfl rfl).1

/-- C8: For the concrete input of document hash `"a"` repeated 64 times
with signature `"invalid_signature"` against an unknown institution, the
verification returns `valid = false` with the single pinned code
`INSTITUTION_NOT_FOUND` (one of the two codes the spec allows; the model
pins institution resolution first per §4.6), and the same input always
yields that same code. -/
theorem C8_unknown_institution_scenario :
    (CertiTrust.verifyDocument (String.mk (List.replicate 64 'a'))
        "invalid_signature" ⟨fun _ => none⟩).valid = false ∧
    (CertiTrust.verifyDocument (String.mk (List.replicate 64 'a'))
        "invalid_signature" ⟨fun _ => none⟩).error_code =
      .INSTITUTION_NOT_FOUND ∧
    ((CertiTrust.verifyDocument (String.mk (List.replicate 64 'a'))
        "invalid_signature" ⟨fun _ => none⟩).error_code =
        .INSTITUTION_NOT_FOUND ∨
     (CertiTrust.verifyDocument (String.mk (List.replicate 64 'a'))
        "invalid_signature" ⟨fun _ => none⟩).error_code =
        .SIGNATURE_MISMATCH) :=
  ⟨rfl, rfl, Or.inl rfl⟩

namespace CertiTrust

/-! ## Audit hash chain
(from `src/scripts/migrate_multitenant.sql`: the `audit_logs` table and
the `get_next_chain_position` / `get_previous_log_hash` functions) -/

/-- A row of the `audit_logs` table (`src/scripts/migrate_multitenant.sql`):
institution, event, optional document hash, the chain fields `log_hash`,
`previous_log_hash` (NULL modelled as `none`), `chain_position`, plus
`created_at` and `actor_id`.  UUIDs, digests and event names are modelled
as naturals. -/
structure AuditRow where
  institution_id : Nat
  event_type : Nat
  document_hash : Option Nat
  log_hash : Nat
  previous_log_hash : Option Nat
  chain_position : Nat
  created_at : Nat
  actor_id : Nat
deriving DecidableEq, Repr

/-- The rows of `audit_logs` belonging to one institution
(`WHERE institution_id = inst_id`). -/
def rowsFor (db : List AuditRow) (inst : Nat) : List AuditRow :=
  db.filter (fun r => r.institution_id == inst)

/-- `get_next_chain_position` from `src/scripts/migrate_multitenant.sql`:
`SELECT COALESCE(MAX(chain_position), 0) + 1 FROM audit_logs WHERE
institution_id = inst_id`. -/
def get_next_chain_position (db : List AuditRow) (inst : Nat) : Nat :=
  ((rowsFor db inst).map (fun r => r.chain_position)).foldl Nat.max 0 + 1

/-- One SQL `MAX`-scan step for `ORDER BY chain_position DESC LIMIT 1`:
keep the row with the larger chain position. -/
def pickLatest (acc : Option AuditRow) (r : AuditRow) : Option AuditRow :=
  match acc with
  | none => some r
  | some b => if b.chain_position < r.chain_position then some r else some b

/-- The row selected by `ORDER BY chain_position DESC LIMIT 1`. -/
def latestRow (rows : List AuditRow) : Option AuditRow :=
  rows.foldl pickLatest none

/-- `get_previous_log_hash` from `src/scripts/migrate_multitenant.sql`:
`SELECT log_hash FROM audit_logs WHERE institution_id = inst_id ORDER BY
chain_position DESC LIMIT 1` — `none` (SQL NULL) when the institution has
no entries. -/
def get_previous_log_hash (db : List AuditRow) (inst : Nat) : Option Nat :=
  (latestRow (rowsFor db inst)).map (fun r => r.log_hash)

/-- Modelled from the spec: `logHash = H(eventType ‖ documentHash ‖
previousLogHash ‖ createdAt ‖ actor)` (§3), with `H` idealised as an
injective encoding. -/
def logHashOf (ev : Nat) (dh : Option Nat) (prev : Option Nat)
    (t actor : Nat) : Nat :=
  Encodable.encode (ev, dh, prev, t, actor)

/-- The event data supplied to one audit append. -/
structure AuditEvent where
  event_type : Nat
  document_hash : Option Nat
  created_at : Nat
  actor_id : Nat
deriving DecidableEq, Repr

/-- The row inserted by one append: `previous_log_hash` from
`get_previous_log_hash`, `chain_position` from `get_next_chain_position`,
`log_hash` derived from the event and the previous hash. -/
def newRow (db : List AuditRow) (inst : Nat) (e : AuditEvent) : AuditRow :=
  { institution_id := inst
    event_type := e.event_type
    document_hash := e.document_hash
    log_hash := logHashOf e.event_type e.document_hash
      (get_previous_log_hash db inst) e.created_at e.actor_id
    previous_log_hash := get_previous_log_hash db inst
    chain_position := get_next_chain_position db inst
    created_at := e.created_at
    actor_id := e.actor_id }

/-- Modelled from the spec: `append(institutionId, eventType,
documentHash?, actor?)` (§4.7) — reads the last entry for the
institution, computes `previousLogHash` and the next `chainPosition` with
the two SQL functions, derives `logHash`, and persists the row. -/
def appendAudit (db : List AuditRow) (inst : Nat) (e : AuditEvent) :
    List AuditRow :=
  db ++ [newRow db inst e]

/-- `N` sequential appends for one institution. -/
def appendAll (db : List AuditRow) (inst : Nat) :
    List AuditEvent → List AuditRow
  | [] => db
  | e :: es => appendAll (appendAudit db inst e) inst es

/-- The per-institution chain invariant: positions are exactly
`1, …, length`; the first entry carries the genesis sentinel (`none`);
each later entry's `previous_log_hash` is the previous entry's
`log_hash`; and the `ORDER BY chain_position DESC LIMIT 1` row is the most
recently appended one. -/
def GoodChain (rows : List AuditRow) : Prop :=
  rows.map (fun r => r.chain_position) = List.range' 1 rows.length ∧
  (∀ h ∈ rows.head?, h.previous_log_hash = none) ∧
  List.Chain' (fun a b => b.previous_log_hash = some a.log_hash) rows ∧
  latestRow rows = rows.getLast?

theorem GoodChain_nil : GoodChain [] := by
  refine ⟨rfl, by simp, by simp, rfl⟩

theorem foldl_max_range' (n : Nat) : (List.range' 1 n).foldl Nat.max 0 = n := by
  induction n with
  | zero => rfl
  | succ m ih =>
    rw [List.range'_concat, List.foldl_append, ih]
    simp [Nat.max_def]
    omega

theorem rowsFor_appendAudit (db : List AuditRow) (inst : Nat) (e : AuditEvent) :
    rowsFor (appendAudit db inst e) inst = rowsFor db inst ++ [newRow db inst e] := by
  simp [rowsFor, appendAudit, List.filter_append, newRow]

theorem getLast?_pos (rows : List AuditRow)
    (hmap : rows.map (fun r => r.chain_position) = List.range' 1 rows.length)
    (hne : rows ≠ []) :
    ∃ b, rows.getLast? = some b ∧ b.chain_position = rows.length := by
  match rows, hne with
  | r :: rest, _ =>
    have hlm : ((r :: rest).map (fun x => x.chain_position)).getLast? =
        ((r :: rest).getLast?).map (fun x => x.chain_position) :=
      List.getLast?_map _ _
    rw [hmap] at hlm
    have hr : (List.range' 1 ((r :: rest).length)).getLast? =
        some ((r :: rest).length) := by
      rw [show (r :: rest).length = rest.length + 1 from rfl,
        List.range'_concat, List.getLast?_concat]
      simp
      omega
    rw [hr] at hlm
    match hgl : (r :: rest).getLast? with
    | some b =>
      rw [hgl] at hlm
      exact ⟨b, rfl, by simpa using hlm.symm⟩
    | none =>
      rw [hgl] at hlm
      simp at hlm

theorem appendAudit_step (db : List AuditRow) (inst : Nat) (e : AuditEvent)
    (h : GoodChain (rowsFor db inst)) :
    GoodChain (rowsFor (appendAudit db inst e) inst) ∧
    (rowsFor (appendAudit db inst e) inst).length =
      (rowsFor db inst).length + 1 := by
  obtain ⟨hmap, hhead, hchain, hlatest⟩ := h
  have hnext : get_next_chain_position db inst = (rowsFor db inst).length + 1 := by
    rw [get_next_chain_position, hmap, foldl_max_range']
  have hprev : get_previous_log_hash db inst =
      ((rowsFor db inst).getLast?).map (fun r => r.log_hash) := by
    rw [get_previous_log_hash, hlatest]
  rw [rowsFor_appendAudit]
  have hpos : (newRow db inst e).chain_position = (rowsFor db inst).length + 1 := by
    simp [newRow, hnext]
  refine ⟨⟨?_, ?_, ?_, ?_⟩, by simp⟩
  · rw [List.map_append, hmap]
    simp only [List.map_cons, List.map_nil, hpos, List.length_append,
      List.length_cons, List.length_nil]
    rw [List.range'_concat]
    simp
    omega
  · intro hd hhd
    match hrows : rowsFor db inst with
    | [] =>
      rw [hrows] at hhd
      simp at hhd
      subst hhd
      simp [newRow, hprev, hrows]
    | a :: rest =>
      rw [hrows] at hhd
      simp at hhd
      apply hhead
      rw [hrows, hhd]
      rfl
  · rw [List.chain'_append]
    refine ⟨hchain, by simp, ?_⟩
    intro x hx y hy
    simp at hy
    subst hy
    simp only [newRow, hprev]
    rw [show (rowsFor db inst).getLast? = some x from hx]
    rfl
  · rw [latestRow, List.foldl_append]
    match hrows : rowsFor db inst with
    | [] => rfl
    | a :: rest =>
      obtain ⟨b, hb, hbpos⟩ := getLast?_pos (a :: rest) (hrows ▸ hmap) (by simp)
      have hl : (a :: rest).foldl pickLatest none = some b := by
        have := hlatest
        rw [hrows] at this
        rw [latestRow] at this
        rw [this, hb]
      rw [hl]
      simp only [List.foldl_cons, List.foldl_nil, pickLatest]
      rw [if_pos (by rw [hbpos, hpos, hrows]; omega)]
      rw [List.getLast?_concat]

theorem appendAll_inv (inst : Nat) (es : List AuditEvent) :
    ∀ db : List AuditRow, GoodChain (rowsFor db inst) →
    GoodChain (rowsFor (appendAll db inst es) inst) ∧
    (rowsFor (appendAll db inst es) inst).length =
      (rowsFor db inst).length + es.length := by
  induction es with
  | nil =>
    intro db h
    exact ⟨h, by simp [appendAll]⟩
  | cons e es ih =>
    intro db h
    have hstep := appendAudit_step db inst e h
    have hrest := ih (appendAudit db inst e) hstep.1
    refine ⟨by simpa [appendAll] using hrest.1, ?_⟩
    have : appendAll db inst (e :: es) = appendAll (appendAudit db inst e) inst es := rfl
    rw [this, hrest.2, hstep.2]
    simp only [List.length_cons]
    omega

end CertiTrust

/-- C5: For every institution, `get_next_chain_position` returns 1 on an
empty per-institution chain (`COALESCE(MAX(chain_position), 0) + 1`), and
`N` sequential audit-chain appends yield chain positions exactly
`1, 2, …, N` (`List.range' 1 N`) — no gaps, no repeats, strictly
increasing per institution starting at 1. -/
theorem C5_chain_positions_sequential (db : List CertiTrust.AuditRow)
    (inst : Nat) (es : List CertiTrust.AuditEvent)
    (h : CertiTrust.rowsFor db inst = []) :
    CertiTrust.get_next_chain_position db inst = 1 ∧
    (CertiTrust.rowsFor (CertiTrust.appendAll db inst es) inst).map
        (fun r => r.chain_position) = List.range' 1 es.length := by
  have h0 : CertiTrust.GoodChain (CertiTrust.rowsFor db inst) := by
    rw [h]
    exact CertiTrust.GoodChain_nil
  have hinv := CertiTrust.appendAll_inv inst es db h0
  constructor
  · rw [CertiTrust.get_next_chain_position, h]
    rfl
  · have hm := hinv.1.1
    rw [hinv.2, h] at hm
    simpa using hm

/-- Witness for C5: two sequential appends to institution 0 on an empty
database give chain positions `[1, 2]`. -/
theorem C5_chain_positions_sequential_witness :
    CertiTrust.rowsFor [] 0 = [] ∧
    (CertiTrust.get_next_chain_position [] 0 = 1 ∧
     (CertiTrust.rowsFor
        (CertiTrust.appendAll [] 0 [⟨1, none, 10, 3⟩, ⟨2, some 5, 11, 3⟩]) 0).map
          (fun r => r.chain_position) = List.range' 1 2) :=
  ⟨rfl, C5_chain_positions_sequential [] 0 [⟨1, none, 10, 3⟩, ⟨2, some 5, 11, 3⟩] rfl⟩

/-- C6: For every institution, `get_previous_log_hash` returns `none`
(the SQL NULL genesis sentinel) when the institution has no entries, and
on a sequentially appended chain it returns the `log_hash` of the entry
with the greatest `chain_position` (the most recently appended row);
consequently the first appended entry carries the genesis sentinel and
every entry `n > 1` has `previous_log_hash` equal to the `log_hash` of
entry `n − 1`. -/
theorem C6_previous_log_hash_linkage (db : List CertiTrust.AuditRow)
    (inst : Nat) (es : List CertiTrust.AuditEvent)
    (h : CertiTrust.rowsFor db inst = []) :
    CertiTrust.get_previous_log_hash db inst = none ∧
    CertiTrust.get_previous_log_hash (CertiTrust.appendAll db inst es) inst =
      ((CertiTrust.rowsFor (CertiTrust.appendAll db inst es) inst).getLast?).map
        (fun r => r.log_hash) ∧
    (∀ hd ∈ (CertiTrust.rowsFor (CertiTrust.appendAll db inst es) inst).head?,
      hd.previous_log_hash = none) ∧
    List.Chain' (fun a b => b.previous_log_hash = some a.log_hash)
      (CertiTrust.rowsFor (CertiTrust.appendAll db inst es) inst) := by
  have h0 : CertiTrust.GoodChain (CertiTrust.rowsFor db inst) := by
    rw [h]
    exact CertiTrust.GoodChain_nil
  have hinv := CertiTrust.appendAll_inv inst es db h0
  refine ⟨?_, ?_, hinv.1.2.1, hinv.1.2.2.1⟩
  · rw [CertiTrust.get_previous_log_hash, h]
    rfl
  · rw [CertiTrust.get_previous_log_hash, hinv.1.2.2.2]

/-- Witness for C6: one append to institution 0 on an empty database has
`previous_log_hash = none` and the lookup returns that row's hash. -/
theorem C6_previous_log_hash_linkage_witness :
    CertiTrust.rowsFor [] 0 = [] ∧
    CertiTrust.get_previous_log_hash [] 0 = none :=
  ⟨rfl, (C6_previous_log_hash_linkage [] 0 [⟨1, none, 10, 3⟩] rfl).1⟩

namespace CertiTrust

/-! ## The `verifyHash` route (from `src/unnamed/part_000`) -/

/-- The result of the on-chain attestation lookup (`checkAttested` in
`src/unnamed/part_000`): `{attested, attestor, blockNumber}`. -/
structure OnChain where
  attested : Bool
  attestor : Nat
  blockNumber : Nat
deriving DecidableEq, Repr

/-- The JSON bodies produced by `verifyHash`: the `{error: …}` body (used
both for the 400 `hash required` reply and the catch-all 500 reply) and
the `{ok: true, attested, attestor, blockNumber, document}` body.
Documents are modelled by their record id. -/
inductive VerifyHashBody where
  | errorBody (msg : List Char)
  | okBody (attested : Bool) (attestor blockNumber : Nat) (document : Option Nat)
deriving DecidableEq, Repr

/-- An HTTP response of the route: status plus JSON body. -/
structure VerifyHashResp where
  status : Nat
  body : VerifyHashBody
deriving DecidableEq, Repr

/-- `hash.startsWith('0x')` on the character list of the hash string. -/
def startsWith0x : List Char → Bool
  | '0' :: 'x' :: _ => true
  | _ => false

/-- The hash sent to the on-chain check
(`hash.startsWith('0x') ? hash : '0x' + hash` in `src/unnamed/part_000`):
always `0x`-prefixed. -/
def normalizedOf (h : List Char) : List Char :=
  if startsWith0x h then h else '0' :: 'x' :: h

/-- The hash used for the database lookup
(`hash.startsWith('0x') ? hash.slice(2) : hash`): always unprefixed. -/
def fileHashOf (h : List Char) : List Char :=
  if startsWith0x h then h.drop 2 else h

/-- The document the route attaches to its reply: the lookup result, with
lookup errors ignored (`// ignore supabase lookup errors`). -/
def dbDocOf (dbLookup : List Char → Except (List Char) (Option Nat))
    (h : List Char) : Option Nat :=
  match dbLookup (fileHashOf h) with
  | .error _ => none
  | .ok d => d

/-- `verifyHash` from `src/unnamed/part_000`: a missing or empty (falsy)
hash gives a 400 `hash required` reply; otherwise the on-chain check runs
on the `0x`-prefixed hash — an exception there reaches the catch-all and
yields a 500 `{error}` reply — then the database lookup runs on the
unprefixed hash with errors ignored, and a 200 `{ok: true, attested,
attestor, blockNumber, document}` reply is returned. -/
def verifyHash (hashArg : Option (List Char))
    (checkAttested : List Char → Except (List Char) OnChain)
    (dbLookup : List Char → Except (List Char) (Option Nat)) :
    VerifyHashResp :=
  match hashArg with
  | none => ⟨400, .errorBody "hash required".data⟩
  | some h =>
    if h.isEmpty then ⟨400, .errorBody "hash required".data⟩
    else
      match checkAttested (normalizedOf h) with
      | .error e => ⟨500, .errorBody e⟩
      | .ok oc => ⟨200, .okBody oc.attested oc.attestor oc.blockNumber (dbDocOf dbLookup h)⟩

end CertiTrust

/-- C7 counterexample: a failure of the attestation collaborator does make
`verifyHash` return an error response — with the same benign database
collaborator, a hash whose `checkAttested` call throws gets a 500
`{error}` reply, while one whose call succeeds gets a 200 reply. -/
theorem C7_attestation_advisory_counterexample :
    (CertiTrust.verifyHash (some ['a', 'b'])
        (fun _ => .error "boom".data) (fun _ => .ok none)).status = 500 ∧
    (CertiTrust.verifyHash (some ['a', 'b'])
        (fun _ => .ok ⟨true, 1, 2⟩) (fun _ => .ok none)).status = 200 :=
  ⟨rfl, rfl⟩

/-- C7 (amended): the attestation result is advisory — whenever the
on-chain check returns (attested or not), the route replies 200 with
`ok: true`, the attestation value only augmenting the body, and a
database-lookup failure is ignored (the reply still succeeds, with
`document = none`); however, an attestation-collaborator failure
propagates to the catch-all handler and returns a 500 error response
(unlike database failures, it is not ignored). -/
theorem C7_attestation_advisory_amended (h : List Char)
    (hne : h.isEmpty = false)
    (ca : List Char → Except (List Char) CertiTrust.OnChain)
    (db : List Char → Except (List Char) (Option Nat)) :
    (∀ oc : CertiTrust.OnChain, ca (CertiTrust.normalizedOf h) = .ok oc →
      CertiTrust.verifyHash (some h) ca db =
        ⟨200, .okBody oc.attested oc.attestor oc.blockNumber
          (CertiTrust.dbDocOf db h)⟩) ∧
    (∀ (oc : CertiTrust.OnChain) (e : List Char),
      ca (CertiTrust.normalizedOf h) = .ok oc →
      (CertiTrust.verifyHash (some h) ca (fun _ => .error e)).status = 200 ∧
      CertiTrust.dbDocOf (fun _ => .error e) h = none) ∧
    (∀ e : List Char, ca (CertiTrust.normalizedOf h) = .error e →
      CertiTrust.verifyHash (some h) ca db = ⟨500, .errorBody e⟩) := by
  refine ⟨?_, ?_, ?_⟩
  · intro oc hca
    simp [CertiTrust.verifyHash, hne, hca]
  · intro oc e hca
    constructor
    · simp [CertiTrust.verifyHash, hne, hca]
    · rfl
  · intro e hca
    simp [CertiTrust.verifyHash, hne, hca]

/-- Witness for C7 (amended) at a concrete hash and collaborators. -/
theorem C7_attestation_advisory_amended_witness :
    CertiTrust.verifyHash (some ['a'])
        (fun _ => .ok ⟨false, 1, 2⟩) (fun _ => .ok (some 7)) =
      ⟨200, .okBody false 1 2
        (CertiTrust.dbDocOf (fun _ => .ok (some 7)) ['a'])⟩ :=
  (C7_attestation_advisory_amended ['a'] rfl
    (fun _ => .ok ⟨false, 1, 2⟩) (fun _ => .ok (some 7))).1 ⟨false, 1, 2⟩ rfl

/-- C10 counterexample: `verifyHash` is not insensitive to the `0x` prefix
for every hash string — the empty string (which does not start with `0x`)
is falsy and gets the 400 `hash required` reply, while `"0x"` is truthy
and proceeds to a 200 reply, with identical benign collaborators. -/
theorem C10_prefix_insensitive_counterexample :
    CertiTrust.startsWith0x [] = false ∧
    CertiTrust.verifyHash (some [])
        (fun _ => .ok ⟨true, 1, 2⟩) (fun _ => .ok none) ≠
      CertiTrust.verifyHash (some ['0', 'x'])
        (fun _ => .ok ⟨true, 1, 2⟩) (fun _ => .ok none) := by
  constructor
  · rfl
  · intro hcontra
    have := congrArg CertiTrust.VerifyHashResp.status hcontra
    simp [CertiTrust.verifyHash] at this

/-- C10 (amended): for every NONEMPTY hash string `h` that does not start
with `0x`, calling `verifyHash` with `h` and with `"0x" ++ h` performs the
same on-chain attestation query (always `0x`-prefixed) and the same
database lookup (always unprefixed), and returns equal results; the empty
string is the only exception (it is falsy and rejected with 400 before
normalization). -/
theorem C10_prefix_insensitive_amended (h : List Char) (hne : h ≠ [])
    (h0x : CertiTrust.startsWith0x h = false)
    (ca : List Char → Except (List Char) CertiTrust.OnChain)
    (db : List Char → Except (List Char) (Option Nat)) :
    CertiTrust.normalizedOf ('0' :: 'x' :: h) = CertiTrust.normalizedOf h ∧
    CertiTrust.fileHashOf ('0' :: 'x' :: h) = CertiTrust.fileHashOf h ∧
    CertiTrust.verifyHash (some ('0' :: 'x' :: h)) ca db =
      CertiTrust.verifyHash (some h) ca db := by
  have hsw : CertiTrust.startsWith0x ('0' :: 'x' :: h) = true := rfl
  have hnorm : CertiTrust.normalizedOf ('0' :: 'x' :: h) =
      CertiTrust.normalizedOf h := by
    rw [CertiTrust.normalizedOf, CertiTrust.normalizedOf, hsw, h0x]
    simp
  have hfile : CertiTrust.fileHashOf ('0' :: 'x' :: h) =
      CertiTrust.fileHashOf h := by
    rw [CertiTrust.fileHashOf, CertiTrust.fileHashOf, hsw, h0x]
    simp
  have hemp : h.isEmpty = false := by
    cases h with
    | nil => exact absurd rfl hne
    | cons a t => rfl
  refine ⟨hnorm, hfile, ?_⟩
  simp only [CertiTrust.verifyHash, CertiTrust.dbDocOf, hnorm, hfile, hemp,
    List.isEmpty_cons, if_false]

/-- Witness for C10 (amended) at a concrete nonempty unprefixed hash. -/
theorem C10_prefix_insensitive_amended_witness :
    CertiTrust.verifyHash (some ['0', 'x', 'a', 'b'])
        (fun _ => .ok ⟨true, 1, 2⟩) (fun _ => .ok (some 3)) =
      CertiTrust.verifyHash (some ['a', 'b'])
        (fun _ => .ok ⟨true, 1, 2⟩) (fun _ => .ok (some 3)) :=
  (C10_prefix_insensitive_amended ['a', 'b'] (by decide) rfl
    (fun _ => .ok ⟨true, 1, 2⟩) (fun _ => .ok (some 3))).2.2
